import Mathlib

/-!
Verification of the model-formulation and evaluation layer of
src/recourse.py (two-stage stochastic production planning: EV, EEV, WS,
TS and the MRP gap estimator).

The Python module is shallowly embedded: numeric arrays become functions
from natural-number indices into a field (rationals for the constraint
and conversion layer, reals for the MRP statistics layer), numpy
flattening becomes explicit division/modulo index arithmetic, and the
external collaborators (the Gurobi solver, the scenario sampler of the
missing util module, and the scipy Student-t quantile) become abstract
function parameters, since the spec declares them external capabilities.
-/

namespace Recourse

/-- Problem parameters, the pars dictionary of recourse.py.  Arrays are
index functions; n, s, m are the number of products, periods and shared
resources.  A has shape (n, m): entry (p, r) is the consumption of
resource r per unit of product p, and its last column (index m - 1) is
the workforce consumption, so that numpy A[:, -1] reads column m - 1. -/
structure Pars (R : Type) where
  n : ℕ
  s : ℕ
  m : ℕ
  A : ℕ → ℕ → R
  B : ℕ → ℕ → R
  UB : ℕ → ℕ → R
  C1 : ℕ → ℕ → R
  C2 : ℕ → ℕ → R
  C3p : ℕ → R
  C3m : ℕ → R
  Qp : ℕ → ℕ → R
  Qm : ℕ → ℕ → R

/-- Numeric values of the first-stage variable groups X, U, Zp, Zm
(the Python dict built by add_1st_stage_variables, or a resolved
Solution). -/
structure Vars1Val (R : Type) where
  X : ℕ → ℕ → R
  U : ℕ → ℕ → R
  Zp : ℕ → R
  Zm : ℕ → R

/-! ### First-stage constraints (add_1st_stage_constraints) -/

/-- Entry (r, t) of A.T @ X: consumption of resource r in period t. -/
def AtX (pars : Pars ℚ) (X : ℕ → ℕ → ℚ) (r t : ℕ) : ℚ :=
  ∑ p ∈ Finset.range pars.n, pars.A p r * X p t

/-- Entry (r, t) of the array A.T @ X - B - U built for con_product. -/
def con_product (pars : Pars ℚ) (v : Vars1Val ℚ) (r t : ℕ) : ℚ :=
  AtX pars v.X r t - pars.B r t - v.U r t

/-- Entry t of Zp - Zm - A[:, -1] @ (X[:, 1:] - X[:, :-1]) built for
con_work; column m - 1 of A is the workforce consumption. -/
def con_work (pars : Pars ℚ) (v : Vars1Val ℚ) (t : ℕ) : ℚ :=
  v.Zp t - v.Zm t -
    ∑ p ∈ Finset.range pars.n, pars.A p (pars.m - 1) * (v.X p (t + 1) - v.X p t)

/-- Entry (r, t) of U - UB built for con_extracap. -/
def con_extracap (pars : Pars ℚ) (v : Vars1Val ℚ) (r t : ℕ) : ℚ :=
  v.U r t - pars.UB r t

/-- Satisfaction of all constraints added by add_1st_stage_constraints:
each of the three arrays is flattened (row-major) and each flat entry is
constrained to be at most 0 (con_product, con_extracap) or equal to 0
(con_work, of 1-D shape s - 1). -/
def add_1st_stage_constraints_sat (pars : Pars ℚ) (v : Vars1Val ℚ) : Prop :=
  (∀ i, i < pars.m * pars.s → con_product pars v (i / pars.s) (i % pars.s) ≤ 0) ∧
  (∀ i, i < pars.s - 1 → con_work pars v i = 0) ∧
  (∀ i, i < pars.m * pars.s → con_extracap pars v (i / pars.s) (i % pars.s) ≤ 0)

/-- Spec reading of family (a): for every resource and period, the
resource consumption obtained by applying the technology matrix to X
does not exceed the base capacity B plus the extra capacity U. -/
def resource_capacity (pars : Pars ℚ) (v : Vars1Val ℚ) : Prop :=
  ∀ r, r < pars.m → ∀ t, t < pars.s →
    AtX pars v.X r t ≤ pars.B r t + v.U r t

/-- Spec reading of family (b): for every pair of consecutive periods,
Zp minus Zm equals the workforce-consumption row of the technology
matrix applied to the period-over-period change in X. -/
def workforce_balance (pars : Pars ℚ) (v : Vars1Val ℚ) : Prop :=
  ∀ t, t < pars.s - 1 →
    v.Zp t - v.Zm t =
      ∑ p ∈ Finset.range pars.n, pars.A p (pars.m - 1) * (v.X p (t + 1) - v.X p t)

/-- Spec reading of family (c): U does not exceed UB element-wise. -/
def extracap_bound (pars : Pars ℚ) (v : Vars1Val ℚ) : Prop :=
  ∀ r, r < pars.m → ∀ t, t < pars.s → v.U r t ≤ pars.UB r t

/-! ### Second-stage constraints (add_2nd_stage_constraints)

The code prepends a zero column to the surplus array along the last
(period) axis, Ym with zeros in front, and constrains
X + Ym[..., :-1] + Yp - Ym[..., 1:] - demands to be 0 entry-wise.  When
the second-stage variables carry a scenario axis (3-D), X (of shape
(n, s)) broadcasts across scenarios. -/

/-- The surplus array after np.concatenate((zeros, Ym), axis=-1): entry
t of the extended array is 0 at t = 0 and Ym (t - 1) afterwards.  The
leading axes of Ym are collected in the index type I. -/
def surplus_shifted {I : Type} (Ym : I → ℕ → ℚ) (i : I) (t : ℕ) : ℚ :=
  if t = 0 then 0 else Ym i (t - 1)

/-- Entry (p, t) of X + Ym_ext[..., :-1] + Yp - Ym_ext[..., 1:] - demands
in the scenario-free (2-D) case. -/
def con_demand2 (X Yp Ym d : ℕ → ℕ → ℚ) (p t : ℕ) : ℚ :=
  X p t + surplus_shifted Ym p t + Yp p t - surplus_shifted Ym p (t + 1) - d p t

/-- Entry (k, p, t) of the same array in the per-scenario (3-D) case;
X has no scenario axis and broadcasts. -/
def con_demand3 (X : ℕ → ℕ → ℚ) (Yp Ym d : ℕ → ℕ → ℕ → ℚ) (k p t : ℕ) : ℚ :=
  X p t + surplus_shifted (Ym k) p t + Yp k p t -
    surplus_shifted (Ym k) p (t + 1) - d k p t

/-- Satisfaction of the constraints added by add_2nd_stage_constraints
on 2-D second-stage variables: every flat entry of the constraint array
of shape (n, s) equals 0. -/
def add_2nd_stage_constraints_sat2 (pars : Pars ℚ) (X Yp Ym d : ℕ → ℕ → ℚ) : Prop :=
  ∀ i, i < pars.n * pars.s →
    con_demand2 X Yp Ym d (i / pars.s) (i % pars.s) = 0

/-- Satisfaction of the constraints added by add_2nd_stage_constraints
on 3-D second-stage variables with S scenarios: every flat entry of the
constraint array of shape (S, n, s) equals 0. -/
def add_2nd_stage_constraints_sat3 (pars : Pars ℚ) (S : ℕ)
    (X : ℕ → ℕ → ℚ) (Yp Ym d : ℕ → ℕ → ℕ → ℚ) : Prop :=
  ∀ i, i < S * (pars.n * pars.s) →
    con_demand3 X Yp Ym d (i / (pars.n * pars.s))
      (i % (pars.n * pars.s) / pars.s) (i % pars.s) = 0

/-- Spec reading of the demand balance, 2-D case: for every product and
period, X plus the surplus carried over from the previous period plus
the shortage Yp minus the surplus Ym equals the demand, the carried-in
surplus being zero at the first period. -/
def demand_balance2 (pars : Pars ℚ) (X Yp Ym d : ℕ → ℕ → ℚ) : Prop :=
  ∀ p, p < pars.n → ∀ t, t < pars.s →
    X p t + (if t = 0 then 0 else Ym p (t - 1)) + Yp p t - Ym p t = d p t

/-- Spec reading of the demand balance, 3-D case: the same equation for
every scenario, product and period. -/
def demand_balance3 (pars : Pars ℚ) (S : ℕ)
    (X : ℕ → ℕ → ℚ) (Yp Ym d : ℕ → ℕ → ℕ → ℚ) : Prop :=
  ∀ k, k < S → ∀ p, p < pars.n → ∀ t, t < pars.s →
    X p t + (if t = 0 then 0 else Ym k p (t - 1)) + Yp k p t - Ym k p t = d k p t

/-! ### Second-stage objective (get_2nd_stage_objective) -/

/-- Numeric values of the second-stage variable groups Yp, Ym, which are
either 2-D arrays of shape (n, s) or 3-D arrays of shape (S, n, s) whose
first axis ranges over scenarios. -/
inductive Vars2Val where
  | d2 (Yp Ym : ℕ → ℕ → ℚ)
  | d3 (S : ℕ) (Yp Ym : ℕ → ℕ → ℕ → ℚ)

/-- The scenario count the code infers from the shape of Yp: 1 when the
array is 2-D, the first-axis length when it is 3-D. -/
def inferredScenarios : Vars2Val → ℕ
  | .d2 _ _ => 1
  | .d3 S _ _ => S

/-- The summed cost quicksum((cost * var).sum() for ...): for a 3-D
variable array the 2-D cost array broadcasts across the scenario axis. -/
def stage2_cost_sum (pars : Pars ℚ) : Vars2Val → ℚ
  | .d2 Yp Ym =>
      (∑ p ∈ Finset.range pars.n, ∑ t ∈ Finset.range pars.s, pars.Qp p t * Yp p t) +
      (∑ p ∈ Finset.range pars.n, ∑ t ∈ Finset.range pars.s, pars.Qm p t * Ym p t)
  | .d3 S Yp Ym =>
      (∑ k ∈ Finset.range S, ∑ p ∈ Finset.range pars.n,
        ∑ t ∈ Finset.range pars.s, pars.Qp p t * Yp k p t) +
      (∑ k ∈ Finset.range S, ∑ p ∈ Finset.range pars.n,
        ∑ t ∈ Finset.range pars.s, pars.Qm p t * Ym k p t)

/-- get_2nd_stage_objective: the summed shortage/surplus cost divided by
the scenario count inferred from the array shape. -/
def get_2nd_stage_objective (pars : Pars ℚ) (vars : Vars2Val) : ℚ :=
  stage2_cost_sum pars vars / inferredScenarios vars

/-! ### Numeric conversion of resolved variables (optimize_EV, optimize_TS)

Both procedures build convert as var2val composed with astype(int) when
intvars is set, and plain var2val otherwise.  numpy astype(int) converts
a float to an integer by truncation toward zero. -/

/-- The integer produced by numpy astype(int): truncation toward zero,
floor for nonnegative values and ceiling for negative ones. -/
def astype_int (q : ℚ) : ℤ :=
  if 0 ≤ q then ⌊q⌋ else ⌈q⌉

/-- The convert closure of optimize_EV and optimize_TS applied to one
resolved variable value: astype(int) when intvars is set, the identity
otherwise. -/
def var2val_convert (intvars : Bool) (q : ℚ) : ℚ :=
  if intvars then (astype_int q : ℚ) else q

/-- The Solution entry for one variable group: convert mapped over the
resolved array. -/
def convert_solution (intvars : Bool) (sol : ℕ → ℕ → ℚ) : ℕ → ℕ → ℚ :=
  fun p t => var2val_convert intvars (sol p t)

/-! ### Per-scenario solve loops of optimize_EEV and optimize_WS

The loop body re-fixes the demand to the i-th sample, optimizes, and
appends the objective value unless the reported status equals
GRB.INFEASIBLE.  The external solver is abstracted as a function from
the scenario index to the (status, objective) pair it reports. -/

/-- Solver statuses distinguished at the abstraction boundary. -/
inductive GStatus where
  | optimal
  | infeasible
  | unbounded
  | other
  deriving DecidableEq

/-- The result list built by the scenario loop of optimize_EEV. -/
def optimize_EEV_results (res : ℕ → GStatus × ℚ) (S : ℕ) : List ℚ :=
  (List.range S).foldl
    (fun results i =>
      if (res i).1 ≠ GStatus.infeasible then results ++ [(res i).2] else results)
    []

/-- The result list built by the scenario loop of optimize_WS; the loop
body is identical to the EEV one. -/
def optimize_WS_results (res : ℕ → GStatus × ℚ) (S : ℕ) : List ℚ :=
  (List.range S).foldl
    (fun results i =>
      if (res i).1 ≠ GStatus.infeasible then results ++ [(res i).2] else results)
    []

/-- C6 witness input: scenario 0 reports INFEASIBLE, scenario 1 solves
to optimality with objective 3. -/
def res_witness (i : ℕ) : GStatus × ℚ :=
  if i = 0 then (GStatus.infeasible, 0) else (GStatus.optimal, 3)

/-! ### Solver-model lifecycle traces

Each procedure is abstracted to the ordered list of solver-adapter
lifecycle events it performs on the normal (exception-free) path:
model creation, optimize calls and model releases.  None of the
procedures wraps its solve loop in an exception handler, so an
exception raised during the loop exits the procedure after a proper
prefix of the body, before any event that follows the body. -/

/-- Lifecycle events at the Solver Adapter boundary. -/
inductive SolverEvent where
  | create (nm : String)
  | run (nm : String)
  | dispose (nm : String)
  deriving DecidableEq

/-- Events of optimize_EV before the final dispose. -/
def optimize_EV_body : List SolverEvent :=
  [SolverEvent.create "EV", SolverEvent.run "EV"]

/-- Normal-path event trace of optimize_EV. -/
def optimize_EV_trace : List SolverEvent :=
  optimize_EV_body ++ [SolverEvent.dispose "EV"]

/-- Events of optimize_EEV before the final dispose: one model creation
followed by one optimize call per scenario. -/
def optimize_EEV_body (S : ℕ) : List SolverEvent :=
  SolverEvent.create "EEV" :: (List.range S).map (fun _ => SolverEvent.run "EEV")

/-- Normal-path event trace of optimize_EEV. -/
def optimize_EEV_trace (S : ℕ) : List SolverEvent :=
  optimize_EEV_body S ++ [SolverEvent.dispose "EEV"]

/-- Events of optimize_TS before the final dispose. -/
def optimize_TS_body : List SolverEvent :=
  [SolverEvent.create "LSDE", SolverEvent.run "LSDE"]

/-- Normal-path event trace of optimize_TS. -/
def optimize_TS_trace : List SolverEvent :=
  optimize_TS_body ++ [SolverEvent.dispose "LSDE"]

/-- Events of run_MRP before the final disposes: the main model and the
submodel are created, then each replica optimizes the main model once
and the submodel once per scenario (the second ObjVal read of each
scenario happens without a further optimize call). -/
def run_MRP_body (replicas S : ℕ) : List SolverEvent :=
  SolverEvent.create "LSDE" :: SolverEvent.create "sub" ::
    ((List.range replicas).map (fun _ =>
      SolverEvent.run "LSDE" ::
        (List.range S).map (fun _ => SolverEvent.run "sub"))).flatten

/-- Normal-path event trace of run_MRP. -/
def run_MRP_trace (replicas S : ℕ) : List SolverEvent :=
  run_MRP_body replicas S ++ [SolverEvent.dispose "LSDE", SolverEvent.dispose "sub"]

/-- Normal-path event trace of optimize_WS: the model is created and
optimized once per scenario, and the procedure returns without any
dispose call. -/
def optimize_WS_trace (S : ℕ) : List SolverEvent :=
  SolverEvent.create "LSDE" :: (List.range S).map (fun _ => SolverEvent.run "LSDE")

/-- A trace releases every model it creates. -/
def releases_all (tr : List SolverEvent) : Prop :=
  ∀ nm, SolverEvent.create nm ∈ tr → SolverEvent.dispose nm ∈ tr

/-- A trace contains no release at all. -/
def no_dispose (tr : List SolverEvent) : Prop :=
  ∀ nm, SolverEvent.dispose nm ∉ tr

/-! ### The MRP gap estimator (run_MRP)

The first-stage objective of a numeric solution is computed by the
code itself (get_1st_stage_objective followed by getValue), so it is
embedded as an explicit sum.  The optimal values returned by the solver
for the main model and for the submodel are abstracted as functions of
the bounds fixed before the optimize call: the submodel is built once
and between its solves only the demand bounds and the X bounds change,
so its reported objective is a function subObjVal of that pair, and the
main model yields first-stage values solveMain of the fixed sample. -/

/-- get_1st_stage_objective: quicksum of cost times variable over the
groups X, U, Zp, Zm; on numeric arrays this is a plain number. -/
def get_1st_stage_objective {R : Type} [CommRing R] (pars : Pars R) (v : Vars1Val R) : R :=
  (∑ p ∈ Finset.range pars.n, ∑ t ∈ Finset.range pars.s, pars.C1 p t * v.X p t) +
  (∑ r ∈ Finset.range pars.m, ∑ t ∈ Finset.range pars.s, pars.C2 r t * v.U r t) +
  (∑ t ∈ Finset.range (pars.s - 1), pars.C3p t * v.Zp t) +
  (∑ t ∈ Finset.range (pars.s - 1), pars.C3m t * v.Zm t)

/-- One iteration of the G loop: the submodel is solved with the demand
fixed to scenario i of the replica sample and X fixed to the candidate
solution xhat, and a is that first-stage cost plus the reported ObjVal.
The code then re-fixes X to the replica solution xk but reads ObjVal
again without calling optimize a second time, so the recourse term of b
is the stale objective of the candidate solve - subObjVal applied to
(sample i, xhat.X), not to (sample i, xk.X).  Finally (a - b) / S is
added to the accumulator. -/
noncomputable def G_k_step (pars : Pars ℝ)
    (subObjVal : (ℕ → ℕ → ℝ) → (ℕ → ℕ → ℝ) → ℝ)
    (xhat xk : Vars1Val ℝ) (sample : ℕ → ℕ → ℕ → ℝ) (S : ℕ)
    (acc : ℝ) (i : ℕ) : ℝ :=
  let a := get_1st_stage_objective pars xhat + subObjVal (sample i) xhat.X
  let b := get_1st_stage_objective pars xk + subObjVal (sample i) xhat.X
  acc + (a - b) / S

/-- The per-replica gap value G_k accumulated over the S scenarios of
the replica sample, starting from 0. -/
noncomputable def G_k (pars : Pars ℝ)
    (subObjVal : (ℕ → ℕ → ℝ) → (ℕ → ℕ → ℝ) → ℝ)
    (xhat xk : Vars1Val ℝ) (sample : ℕ → ℕ → ℕ → ℝ) (S : ℕ) : ℝ :=
  (List.range S).foldl (G_k_step pars subObjVal xhat xk sample S) 0

/-- The total cost of a first-stage choice v under one demand scenario
d that the spec intends: its first-stage cost plus the optimal recourse
cost of the submodel re-solved with X fixed to v.X and the demand fixed
to d.  The claimed paired gap accumulates differences of this quantity;
the code computes it only for the candidate, never for xk. -/
noncomputable def total_cost (pars : Pars ℝ)
    (subObjVal : (ℕ → ℕ → ℝ) → (ℕ → ℕ → ℝ) → ℝ)
    (v : Vars1Val ℝ) (d : ℕ → ℕ → ℝ) : ℝ :=
  get_1st_stage_objective pars v + subObjVal d v.X

/-- Modelled from the spec: util.draw_samples, the external Scenario
Sampler, is absent from src.  The spec describes it as a capability
that, given a sample count, the parameters, a rounding flag and an
optional random seed, returns an array of independent demand draws.  It
is embedded as a deterministic function of the seed when one is given,
and as a fresh stream draw indexed by the call number when no seed is
given; callIdx is the number of calls made before this one. -/
def draw_samples {σ : Type} (rng det : ℕ → σ) (callIdx : ℕ) (seed : Option ℕ) : σ :=
  match seed with
  | none => rng callIdx
  | some sd => det sd

/-- The sample drawn at the start of replica k of run_MRP: the code
calls draw_samples inside the replica loop with the seed argument of
run_MRP passed unchanged, so replica k performs the k-th call. -/
def run_MRP_sample {σ : Type} (rng det : ℕ → σ) (seed : Option ℕ) (k : ℕ) : σ :=
  draw_samples rng det k seed

/-- The list G of per-replica gap values accumulated by the replica
loop of run_MRP: for each k, a sample is drawn, the main model is
re-fixed to it and solved for the replica first-stage values, and G_k
is computed over the S scenarios of that sample. -/
noncomputable def run_MRP_G (pars : Pars ℝ)
    (solveMain : (ℕ → ℕ → ℕ → ℝ) → Vars1Val ℝ)
    (subObjVal : (ℕ → ℕ → ℝ) → (ℕ → ℕ → ℝ) → ℝ)
    (xhat : Vars1Val ℝ) (rng det : ℕ → ℕ → ℕ → ℕ → ℝ) (seed : Option ℕ)
    (S replicas : ℕ) : List ℝ :=
  (List.range replicas).map (fun k =>
    G_k pars subObjVal xhat (solveMain (run_MRP_sample rng det seed k))
      (run_MRP_sample rng det seed k) S)

/-- numpy mean of a list: sum divided by length. -/
noncomputable def npMean (G : List ℝ) : ℝ :=
  G.sum / G.length

/-- The confidence-interval aggregation at the end of run_MRP.  The
mean of an empty G is the float nan, not a gap bound, and 1 divided by
the Python integer replicas - 1 raises ZeroDivisionError when replicas
equals 1; both failure modes are modelled as none.  Otherwise the code
returns G_bar + t * sG / sqrt(replicas) with
sG = sqrt(1 / (replicas - 1) * sum((G - G_bar)^2)) and t the Student-t
quantile value passed in as tq. -/
noncomputable def run_MRP_CI (tq : ℝ) (replicas : ℕ) (G : List ℝ) : Option ℝ :=
  if G.isEmpty then none
  else if (replicas : ℤ) - 1 = 0 then none
  else
    some (npMean G + tq * Real.sqrt (1 / ((replicas : ℝ) - 1) *
      (G.map (fun g => (g - npMean G) ^ 2)).sum) / Real.sqrt replicas)

/-- run_MRP composed: the replica loop produces G and the aggregation
produces the bound, with the Student-t quantile obtained from the
external statistics capability tppf at level alpha with replicas - 1
degrees of freedom. -/
noncomputable def run_MRP (tppf : ℚ → ℤ → ℝ) (alpha : ℚ) (pars : Pars ℝ)
    (solveMain : (ℕ → ℕ → ℕ → ℝ) → Vars1Val ℝ)
    (subObjVal : (ℕ → ℕ → ℝ) → (ℕ → ℕ → ℝ) → ℝ)
    (xhat : Vars1Val ℝ) (rng det : ℕ → ℕ → ℕ → ℕ → ℝ) (seed : Option ℕ)
    (S replicas : ℕ) : Option ℝ :=
  run_MRP_CI (tppf alpha ((replicas : ℤ) - 1)) replicas
    (run_MRP_G pars solveMain subObjVal xhat rng det seed S replicas)

/-- The unbiased sample standard deviation of a list: square root of
the sum of squared deviations from the mean divided by (length - 1). -/
noncomputable def sample_std (G : List ℝ) : ℝ :=
  Real.sqrt ((G.map (fun g => (g - npMean G) ^ 2)).sum / ((G.length : ℝ) - 1))

/-- C3 witness inputs: a trivial parameter set and solution over the
reals, used to instantiate the MRP statements at a concrete point. -/
def pars0 : Pars ℝ :=
  ⟨0, 0, 0, fun _ _ => 0, fun _ _ => 0, fun _ _ => 0, fun _ _ => 0,
    fun _ _ => 0, fun _ => 0, fun _ => 0, fun _ _ => 0, fun _ _ => 0⟩

/-- All-zero first-stage values. -/
def v1zero : Vars1Val ℝ :=
  ⟨fun _ _ => 0, fun _ _ => 0, fun _ => 0, fun _ => 0⟩

/-- First-stage values whose X entries are all one, used to exhibit a
replica solution whose recourse cost differs from the candidate. -/
def v1one : Vars1Val ℝ :=
  ⟨fun _ _ => 1, fun _ _ => 0, fun _ => 0, fun _ => 0⟩

/-- The G list of the concrete MRP instance of the C3 witness. -/
noncomputable def mrpG_ex : List ℝ :=
  run_MRP_G pars0 (fun _ => v1zero) (fun _ _ => 0) v1zero
    (fun _ _ _ _ => 0) (fun _ _ _ _ => 0) none 1 2

/-- C5 witness inputs: a small rational parameter set. -/
def parsQ_ex : Pars ℚ :=
  ⟨1, 2, 1, fun _ _ => 1, fun _ _ => 10, fun _ _ => 0, fun _ _ => 1,
    fun _ _ => 0, fun _ => 1, fun _ => 1, fun _ _ => 2, fun _ _ => 3⟩

/-! ### Theorems -/
/-! ### Index flattening

numpy flattens an array of shape (R, s) in row-major order, so the flat
index i corresponds to the pair (i / s, i % s), and an array of shape
(S, R, s) sends i to (i / (R * s), (i % (R * s)) / s, i % s).  The next
two lemmas convert a statement quantified over flat indices into one
quantified over the multi-indices. -/

theorem forall_flat_pair {R s : ℕ} (f : ℕ → ℕ → Prop) :
    (∀ i, i < R * s → f (i / s) (i % s)) ↔
      ∀ r, r < R → ∀ t, t < s → f r t := by
  constructor
  · intro h r hr t ht
    have hs : 0 < s := lt_of_le_of_lt (Nat.zero_le t) ht
    have hi : s * r + t < R * s := by
      calc s * r + t < s * r + s := by omega
        _ = s * (r + 1) := by ring
        _ ≤ s * R := Nat.mul_le_mul_left s hr
        _ = R * s := Nat.mul_comm s R
    have h1 : (s * r + t) / s = r := by
      rw [Nat.mul_add_div hs, Nat.div_eq_of_lt ht]
      omega
    have h2 : (s * r + t) % s = t := by
      rw [Nat.mul_add_mod, Nat.mod_eq_of_lt ht]
    have := h (s * r + t) hi
    rwa [h1, h2] at this
  · intro h i hi
    have hs : 0 < s := by
      rcases Nat.eq_zero_or_pos s with h0 | h0
      · subst h0; simp at hi
      · exact h0
    exact h (i / s) ((Nat.div_lt_iff_lt_mul hs).mpr hi) (i % s) (Nat.mod_lt i hs)

theorem forall_flat_triple {S R s : ℕ} (f : ℕ → ℕ → ℕ → Prop) :
    (∀ i, i < S * (R * s) → f (i / (R * s)) (i % (R * s) / s) (i % s)) ↔
      ∀ k, k < S → ∀ r, r < R → ∀ t, t < s → f k r t := by
  have hmod : ∀ i : ℕ, i % s = i % (R * s) % s := fun i =>
    (Nat.mod_mod_of_dvd i (dvd_mul_left s R)).symm
  constructor
  · intro h k hk r hr t ht
    have hinner : ∀ j, j < R * s → f k (j / s) (j % s) := by
      have := (forall_flat_pair (R := S) (s := R * s)
        (fun k j => f k (j / s) (j % s))).mp ?_ k hk
      · exact this
      · intro i hi
        have := h i hi
        rwa [hmod i] at this
    exact (forall_flat_pair (fun r t => f k r t)).mp hinner r hr t ht
  · intro h i hi
    rw [hmod i]
    refine (forall_flat_pair (R := S) (s := R * s)
      (fun k j => f k (j / s) (j % s))).mpr ?_ i hi
    intro k hk j hj
    exact (forall_flat_pair (fun r t => f k r t)).mpr (h k hk) j hj

/-- C2: add_1st_stage_constraints adds exactly three constraint
families, and they hold exactly when (a) the technology matrix applied
to X stays within base plus extra capacity for every resource and
period, (b) Zp minus Zm matches the workforce row of the technology
matrix applied to the period-over-period change of X for every pair of
consecutive periods, and (c) U is at most UB element-wise. -/
theorem add_1st_stage_constraints_families (pars : Pars ℚ) (v : Vars1Val ℚ) :
    add_1st_stage_constraints_sat pars v ↔
      resource_capacity pars v ∧ workforce_balance pars v ∧ extracap_bound pars v := by
  unfold add_1st_stage_constraints_sat resource_capacity workforce_balance extracap_bound
  rw [forall_flat_pair (fun r t => con_product pars v r t ≤ 0),
    forall_flat_pair (fun r t => con_extracap pars v r t ≤ 0)]
  unfold con_product con_extracap con_work
  constructor
  · rintro ⟨ha, hb, hc⟩
    refine ⟨fun r hr t ht => ?_, fun t ht => ?_, fun r hr t ht => ?_⟩
    · have := ha r hr t ht; linarith
    · have := hb t ht; linarith
    · have := hc r hr t ht; linarith
  · rintro ⟨ha, hb, hc⟩
    refine ⟨fun r hr t ht => ?_, fun t ht => ?_, fun r hr t ht => ?_⟩
    · have := ha r hr t ht; linarith
    · have := hb t ht; linarith
    · have := hc r hr t ht; linarith

theorem con_demand2_eq_zero_iff (X Yp Ym d : ℕ → ℕ → ℚ) (p t : ℕ) :
    con_demand2 X Yp Ym d p t = 0 ↔
      X p t + (if t = 0 then 0 else Ym p (t - 1)) + Yp p t - Ym p t = d p t := by
  unfold con_demand2 surplus_shifted
  have h1 : t + 1 ≠ 0 := Nat.succ_ne_zero t
  rw [if_neg h1]
  simp only [Nat.add_sub_cancel]
  constructor <;> intro h <;> linarith

/-- C1: the demand-balance constraint built by add_2nd_stage_constraints
states, for every product and period (and every scenario in the 3-D
case), that X plus the surplus carried over from the previous period
plus the shortage Yp minus the surplus Ym equals the demand, with the
carried-in surplus equal to zero at the first period. -/
theorem add_2nd_stage_constraints_demand_balance (pars : Pars ℚ) (S : ℕ)
    (X Yp2 Ym2 d2 : ℕ → ℕ → ℚ) (Yp3 Ym3 d3 : ℕ → ℕ → ℕ → ℚ) :
    (add_2nd_stage_constraints_sat2 pars X Yp2 Ym2 d2 ↔
      demand_balance2 pars X Yp2 Ym2 d2) ∧
    (add_2nd_stage_constraints_sat3 pars S X Yp3 Ym3 d3 ↔
      demand_balance3 pars S X Yp3 Ym3 d3) := by
  constructor
  · unfold add_2nd_stage_constraints_sat2 demand_balance2
    rw [forall_flat_pair (fun p t => con_demand2 X Yp2 Ym2 d2 p t = 0)]
    exact forall_congr' fun p => forall_congr' fun hp =>
      forall_congr' fun t => forall_congr' fun ht =>
        con_demand2_eq_zero_iff X Yp2 Ym2 d2 p t
  · unfold add_2nd_stage_constraints_sat3 demand_balance3
    rw [forall_flat_triple (fun k p t => con_demand3 X Yp3 Ym3 d3 k p t = 0)]
    refine forall_congr' fun k => forall_congr' fun hk =>
      forall_congr' fun p => forall_congr' fun hp =>
        forall_congr' fun t => forall_congr' fun ht => ?_
    have : con_demand3 X Yp3 Ym3 d3 k p t = con_demand2 X (Yp3 k) (Ym3 k) (d3 k) p t := by
      unfold con_demand3 con_demand2
      rfl
    rw [this, con_demand2_eq_zero_iff]

/-- C5: get_2nd_stage_objective divides the summed shortage/surplus cost
by the scenario count inferred from the shape (1 for 2-D, the first-axis
length for 3-D), and consequently evaluating it on a single scenario
equals evaluating it on that scenario replicated S times along a new
first axis: the result is the per-scenario average recourse cost,
regardless of S. -/
theorem get_2nd_stage_objective_scenario_invariance (pars : Pars ℚ)
    (S : ℕ) (Yp Ym : ℕ → ℕ → ℚ) (hS : 1 ≤ S) :
    inferredScenarios (.d2 Yp Ym) = 1 ∧
    inferredScenarios (.d3 S (fun _ => Yp) (fun _ => Ym)) = S ∧
    get_2nd_stage_objective pars (.d2 Yp Ym) =
      stage2_cost_sum pars (.d2 Yp Ym) / 1 ∧
    get_2nd_stage_objective pars (.d3 S (fun _ => Yp) (fun _ => Ym)) =
      stage2_cost_sum pars (.d3 S (fun _ => Yp) (fun _ => Ym)) / S ∧
    get_2nd_stage_objective pars (.d3 S (fun _ => Yp) (fun _ => Ym)) =
      get_2nd_stage_objective pars (.d2 Yp Ym) := by
  have hS0 : (S : ℚ) ≠ 0 := Nat.cast_ne_zero.mpr (by omega)
  refine ⟨rfl, rfl, rfl, rfl, ?_⟩
  unfold get_2nd_stage_objective stage2_cost_sum inferredScenarios
  simp only [Finset.sum_const, Finset.card_range, nsmul_eq_mul, Nat.cast_one]
  field_simp
  ring

/-- C9 counterexample: at the value 13/5 = 2.6 the conversion applied
with intvars active yields 2, while rounding to the nearest integer
yields 3, so the returned arrays are not the values rounded to integer. -/
theorem convert_solution_is_not_rounding :
    convert_solution true (fun _ _ => 13 / 5) 0 0 = 2 ∧
    (round ((13 : ℚ) / 5) : ℚ) = 3 ∧
    convert_solution true (fun _ _ => 13 / 5) 0 0 ≠ (round ((13 : ℚ) / 5) : ℚ) := by
  refine ⟨?_, ?_, ?_⟩ <;> norm_num [convert_solution, var2val_convert, astype_int, round_eq]

/-- C9 amended: when intvars is inactive the Solution arrays are the
resolved values unmodified; when intvars is active each entry is the
value truncated toward zero by astype(int) - an integer whose magnitude
does not exceed the value and that lies within distance one of it - and
not, in general, the value rounded to the nearest integer. -/
theorem convert_solution_truncates (sol : ℕ → ℕ → ℚ) (p t : ℕ) :
    convert_solution false sol p t = sol p t ∧
    convert_solution true sol p t = (astype_int (sol p t) : ℚ) ∧
    |(astype_int (sol p t) : ℚ)| ≤ |sol p t| ∧
    |sol p t - (astype_int (sol p t) : ℚ)| < 1 := by
  refine ⟨rfl, rfl, ?_, ?_⟩
  · unfold astype_int
    by_cases h : 0 ≤ sol p t
    · rw [if_pos h, abs_of_nonneg h, abs_of_nonneg]
      · exact Int.floor_le _
      · exact_mod_cast Int.floor_nonneg.mpr h
    · push_neg at h
      rw [if_neg (not_le.mpr h), abs_of_neg h, abs_of_nonpos]
      · exact neg_le_neg (Int.le_ceil _)
      · exact_mod_cast Int.ceil_le.mpr (by exact_mod_cast le_of_lt h : sol p t ≤ ((0 : ℤ) : ℚ))
  · unfold astype_int
    by_cases h : 0 ≤ sol p t
    · rw [if_pos h, abs_of_nonneg (by
        have := Int.floor_le (sol p t)
        linarith)]
      have := Int.lt_floor_add_one (sol p t)
      linarith
    · push_neg at h
      rw [if_neg (not_le.mpr h), abs_of_nonpos (by
        have := Int.le_ceil (sol p t)
        linarith)]
      have := Int.ceil_lt_add_one (sol p t)
      linarith

theorem scenario_foldl_eq_filter_map (res : ℕ → GStatus × ℚ) :
    ∀ (l : List ℕ) (init : List ℚ),
      l.foldl
        (fun results i =>
          if (res i).1 ≠ GStatus.infeasible then results ++ [(res i).2] else results)
        init =
      init ++ (l.filter (fun i => decide ((res i).1 ≠ GStatus.infeasible))).map
        (fun i => (res i).2) := by
  intro l
  induction l with
  | nil => intro init; simp
  | cons a l ih =>
    intro init
    simp only [List.foldl_cons, List.filter_cons]
    by_cases h : (res a).1 = GStatus.infeasible
    · rw [if_neg (by simp [h]), ih]
      simp [h]
    · rw [if_pos h, ih]
      simp [h]

/-- C6 counterexample: a scenario whose solve reports the UNBOUNDED
status - non-optimal and distinct from INFEASIBLE - still has its
objective value appended to the returned list, so a non-optimal status
is not always omitted. -/
theorem nonoptimal_scenario_not_omitted :
    optimize_EEV_results (fun _ => (GStatus.unbounded, 5)) 1 = [5] ∧
    GStatus.unbounded ≠ GStatus.optimal ∧
    GStatus.unbounded ≠ GStatus.infeasible := by
  refine ⟨?_, by decide, by decide⟩
  rfl

/-- C6 amended: the loops of optimize_EEV and optimize_WS omit exactly
the scenarios whose solve reports the INFEASIBLE status and keep every
other scenario in iteration order (the loop never aborts); hence when
some scenario in range reports INFEASIBLE, the returned list is strictly
shorter than the scenario count. -/
theorem scenario_loops_skip_only_infeasible (res : ℕ → GStatus × ℚ) (S : ℕ)
    (h : ∃ i, i < S ∧ (res i).1 = GStatus.infeasible) :
    optimize_EEV_results res S =
      ((List.range S).filter (fun i => decide ((res i).1 ≠ GStatus.infeasible))).map
        (fun i => (res i).2) ∧
    optimize_WS_results res S =
      ((List.range S).filter (fun i => decide ((res i).1 ≠ GStatus.infeasible))).map
        (fun i => (res i).2) ∧
    (optimize_EEV_results res S).length < S ∧
    (optimize_WS_results res S).length < S := by
  have heq := scenario_foldl_eq_filter_map res (List.range S) []
  have h1 : optimize_EEV_results res S =
      ((List.range S).filter (fun i => decide ((res i).1 ≠ GStatus.infeasible))).map
        (fun i => (res i).2) := by
    unfold optimize_EEV_results
    rw [heq]
    simp
  have h2 : optimize_WS_results res S =
      ((List.range S).filter (fun i => decide ((res i).1 ≠ GStatus.infeasible))).map
        (fun i => (res i).2) := by
    unfold optimize_WS_results
    rw [heq]
    simp
  have hlt : (((List.range S).filter
      (fun i => decide ((res i).1 ≠ GStatus.infeasible)))).length < S := by
    obtain ⟨i, hiS, hinf⟩ := h
    have hsub : List.Sublist
        ((List.range S).filter (fun i => decide ((res i).1 ≠ GStatus.infeasible)))
        (List.range S) :=
      List.filter_sublist _
    have hle := hsub.length_le
    rw [List.length_range] at hle
    rcases lt_or_eq_of_le hle with hlt | heq2
    · exact hlt
    · exfalso
      have hfull : (List.range S).filter
          (fun i => decide ((res i).1 ≠ GStatus.infeasible)) = List.range S :=
        hsub.eq_of_length (by rw [List.length_range]; exact heq2)
      have hi : i ∈ (List.range S).filter
          (fun i => decide ((res i).1 ≠ GStatus.infeasible)) := by
        rw [hfull]
        exact List.mem_range.mpr hiS
      have := (List.mem_filter.mp hi).2
      simp [hinf] at this
  refine ⟨h1, h2, ?_, ?_⟩
  · rw [h1, List.length_map]
    exact hlt
  · rw [h2, List.length_map]
    exact hlt

theorem scenario_loops_skip_only_infeasible_witness :
    (∃ i, i < 2 ∧ (res_witness i).1 = GStatus.infeasible) ∧
    (optimize_EEV_results res_witness 2).length < 2 ∧
    (optimize_WS_results res_witness 2).length < 2 :=
  ⟨⟨0, by decide⟩,
    (scenario_loops_skip_only_infeasible res_witness 2 ⟨0, by decide⟩).2.2.1,
    (scenario_loops_skip_only_infeasible res_witness 2 ⟨0, by decide⟩).2.2.2⟩

/-- C8 counterexample: optimize_WS creates a model and its trace
contains no dispose event even on the normal return path, so not every
procedure releases every model it creates on all exit paths. -/
theorem ws_model_never_disposed :
    SolverEvent.create "LSDE" ∈ optimize_WS_trace 1 ∧
    SolverEvent.dispose "LSDE" ∉ optimize_WS_trace 1 := by
  constructor
  · simp [optimize_WS_trace]
  · simp [optimize_WS_trace]

/-- C8 amended: optimize_EV, optimize_EEV, optimize_TS and run_MRP
release every model they create, but only as the final events of the
normal return path - their bodies contain no dispose, so an exception
raised during a solve loop exits without any release - while
optimize_WS never releases its model on any path. -/
theorem model_release_exit_paths (S replicas : ℕ) :
    releases_all optimize_EV_trace ∧
    releases_all (optimize_EEV_trace S) ∧
    releases_all optimize_TS_trace ∧
    releases_all (run_MRP_trace replicas S) ∧
    no_dispose (optimize_WS_trace S) ∧
    no_dispose optimize_EV_body ∧
    no_dispose (optimize_EEV_body S) ∧
    no_dispose optimize_TS_body ∧
    no_dispose (run_MRP_body replicas S) ∧
    optimize_EV_trace = optimize_EV_body ++ [SolverEvent.dispose "EV"] ∧
    optimize_EEV_trace S = optimize_EEV_body S ++ [SolverEvent.dispose "EEV"] ∧
    optimize_TS_trace = optimize_TS_body ++ [SolverEvent.dispose "LSDE"] ∧
    run_MRP_trace replicas S =
      run_MRP_body replicas S ++ [SolverEvent.dispose "LSDE", SolverEvent.dispose "sub"] := by
  refine ⟨?_, ?_, ?_, ?_, ?_, ?_, ?_, ?_, ?_, rfl, rfl, rfl, rfl⟩
  · intro nm h
    simp only [optimize_EV_trace, optimize_EV_body, List.mem_append, List.mem_cons,
      List.mem_singleton, List.not_mem_nil, or_false] at h ⊢
    rcases h with h | h | h | h ; simp_all
  · intro nm h
    simp only [optimize_EEV_trace, optimize_EEV_body, List.mem_append, List.mem_cons,
      List.mem_map, List.mem_singleton] at h ⊢
    rcases h with (h | ⟨i, _, h⟩) | h <;> simp_all
  · intro nm h
    simp only [optimize_TS_trace, optimize_TS_body, List.mem_append, List.mem_cons,
      List.mem_singleton, List.not_mem_nil, or_false] at h ⊢
    rcases h with h | h | h | h ; simp_all
  · intro nm h
    simp only [run_MRP_trace, run_MRP_body, List.mem_append, List.mem_cons,
      List.mem_flatten, List.mem_map, List.mem_singleton] at h ⊢
    rcases h with (h | h | ⟨l, ⟨i, _, rfl⟩, h⟩) | h
    · simp_all
    · simp_all
    · exfalso
      simp only [List.mem_cons, List.mem_map] at h
      rcases h with h | ⟨j, _, h⟩
      · exact absurd h (by simp)
      · simp at h
    · simp_all
  · intro nm h
    simp only [optimize_WS_trace, List.mem_cons, List.mem_map] at h
    rcases h with h | ⟨i, _, h⟩ <;> simp_all
  · intro nm h
    simp only [optimize_EV_body, List.mem_cons, List.not_mem_nil, or_false] at h
    rcases h with h | h <;> simp_all
  · intro nm h
    simp only [optimize_EEV_body, List.mem_cons, List.mem_map] at h
    rcases h with h | ⟨i, _, h⟩ <;> simp_all
  · intro nm h
    simp only [optimize_TS_body, List.mem_cons, List.not_mem_nil, or_false] at h
    rcases h with h | h <;> simp_all
  · intro nm h
    simp only [run_MRP_body, List.mem_cons, List.mem_flatten, List.mem_map] at h
    rcases h with h | h | ⟨l, ⟨i, _, rfl⟩, h⟩
    · simp_all
    · simp_all
    · simp only [List.mem_cons, List.mem_map] at h
      rcases h with h | ⟨j, _, h⟩
      · simp_all
      · simp at h

theorem foldl_add_eq_sum (f : ℕ → ℝ) :
    ∀ (S : ℕ) (init : ℝ),
      (List.range S).foldl (fun acc i => acc + f i) init =
        init + ∑ i ∈ Finset.range S, f i := by
  intro S
  induction S with
  | zero => intro init; simp
  | succ n ih =>
    intro init
    rw [List.range_succ, List.foldl_append, ih, Finset.sum_range_succ]
    simp only [List.foldl_cons, List.foldl_nil]
    ring

/-- C4: the claim does not hold of the program - the code re-fixes
sub_X to the replica solution xk but never calls optimize again before
reading ObjVal, so both ObjVal reads of a scenario return the recourse
cost of the candidate and the recourse terms cancel.  G_k equals the
sum over the S scenarios of (first-stage cost of the candidate minus
first-stage cost of xk) / S: the right-hand side mentions neither the
submodel value function nor the sample, so the recourse evaluation of
xk that the claim (and the comment solve v(w_k_s, x_k) in the code)
describe contributes nothing to the computed gap. -/
theorem G_k_stale_objval (pars : Pars ℝ)
    (subObjVal : (ℕ → ℕ → ℝ) → (ℕ → ℕ → ℝ) → ℝ)
    (xhat xk : Vars1Val ℝ) (sample : ℕ → ℕ → ℕ → ℝ) (S : ℕ) :
    G_k pars subObjVal xhat xk sample S =
      ∑ _i ∈ Finset.range S,
        (get_1st_stage_objective pars xhat - get_1st_stage_objective pars xk) / S := by
  unfold G_k
  have hstep : G_k_step pars subObjVal xhat xk sample S =
      fun acc i => acc +
        ((get_1st_stage_objective pars xhat + subObjVal (sample i) xhat.X) -
          (get_1st_stage_objective pars xk + subObjVal (sample i) xhat.X)) / S := rfl
  rw [hstep]
  rw [show (fun acc i => acc +
      ((get_1st_stage_objective pars xhat + subObjVal (sample i) xhat.X) -
        (get_1st_stage_objective pars xk + subObjVal (sample i) xhat.X)) / S) =
    fun acc _i => acc +
      (get_1st_stage_objective pars xhat - get_1st_stage_objective pars xk) / S by
      funext acc _i
      ring]
  rw [foldl_add_eq_sum, zero_add]

/-- Concrete evaluation at the failing input of C4: a parameter set with
all-zero costs, a submodel whose optimal value is the fixed entry
X 0 0, the candidate with X = 0 and a replica solution with X = 1, one
scenario.  The code computes G_k = 0, while the paired evaluation the
claim describes would give (0 + 0) - (0 + 1) = -1. -/
theorem G_k_stale_objval_example :
    G_k pars0 (fun _ X => X 0 0) v1zero v1one (fun _ _ _ => 0) 1 = 0 ∧
    (∑ _i ∈ Finset.range 1,
      (total_cost pars0 (fun _ X => X 0 0) v1zero (fun _ _ => 0) -
        total_cost pars0 (fun _ X => X 0 0) v1one (fun _ _ => 0)) / 1) = -1 := by
  constructor
  · simp [G_k, G_k_step, List.range_succ, List.range_zero, get_1st_stage_objective,
      pars0, v1zero, v1one]
  · simp [total_cost, get_1st_stage_objective, pars0, v1zero, v1one]

theorem run_MRP_G_length (pars : Pars ℝ)
    (solveMain : (ℕ → ℕ → ℕ → ℝ) → Vars1Val ℝ)
    (subObjVal : (ℕ → ℕ → ℝ) → (ℕ → ℕ → ℝ) → ℝ)
    (xhat : Vars1Val ℝ) (rng det : ℕ → ℕ → ℕ → ℕ → ℝ) (seed : Option ℕ)
    (S replicas : ℕ) :
    (run_MRP_G pars solveMain subObjVal xhat rng det seed S replicas).length = replicas := by
  unfold run_MRP_G
  rw [List.length_map, List.length_range]

/-- C3: when it returns at all (replicas at least 2), run_MRP returns
exactly G_bar plus the Student-t quantile at level alpha with
replicas - 1 degrees of freedom times the unbiased sample standard
deviation of the G values (denominator replicas - 1) divided by
sqrt(replicas), where G_bar is the arithmetic mean of the replicas
per-replica gap values. -/
theorem run_MRP_student_t_bound (tppf : ℚ → ℤ → ℝ) (alpha : ℚ) (pars : Pars ℝ)
    (solveMain : (ℕ → ℕ → ℕ → ℝ) → Vars1Val ℝ)
    (subObjVal : (ℕ → ℕ → ℝ) → (ℕ → ℕ → ℝ) → ℝ)
    (xhat : Vars1Val ℝ) (rng det : ℕ → ℕ → ℕ → ℕ → ℝ) (seed : Option ℕ)
    (S replicas : ℕ) (h2 : 2 ≤ replicas) :
    run_MRP tppf alpha pars solveMain subObjVal xhat rng det seed S replicas =
      some (npMean (run_MRP_G pars solveMain subObjVal xhat rng det seed S replicas) +
        tppf alpha ((replicas : ℤ) - 1) *
          sample_std (run_MRP_G pars solveMain subObjVal xhat rng det seed S replicas) /
          Real.sqrt replicas) := by
  have hlen := run_MRP_G_length pars solveMain subObjVal xhat rng det seed S replicas
  unfold run_MRP run_MRP_CI
  have hne1 : ¬ ((run_MRP_G pars solveMain subObjVal xhat rng det seed S replicas).isEmpty
      = true) := by
    rw [List.isEmpty_iff]
    intro h
    rw [h] at hlen
    simp at hlen
    omega
  have hne2 : ¬ ((replicas : ℤ) - 1 = 0) := by omega
  rw [if_neg hne1, if_neg hne2]
  unfold sample_std
  rw [hlen, one_div_mul_eq_div]

theorem run_MRP_student_t_bound_witness :
    2 ≤ 2 ∧
    run_MRP (fun _ _ => 1) 0 pars0 (fun _ => v1zero) (fun _ _ => 0) v1zero
        (fun _ _ _ _ => 0) (fun _ _ _ _ => 0) none 1 2 =
      some (npMean mrpG_ex + 1 * sample_std mrpG_ex / Real.sqrt ((2 : ℕ) : ℝ)) :=
  ⟨by omega,
    run_MRP_student_t_bound (fun _ _ => 1) 0 pars0 (fun _ => v1zero) (fun _ _ => 0)
      v1zero (fun _ _ _ _ => 0) (fun _ _ _ _ => 0) none 1 2 (by omega)⟩

/-- C10: run_MRP returns a gap bound exactly when replicas is at least
2.  At replicas = 1 the expression 1 / (replicas - 1) divides by the
Python integer zero and the call fails with ZeroDivisionError; at
replicas = 0 the G list is empty and its mean is the float nan, which
is not a gap bound.  Both failures are modelled as none. -/
theorem run_MRP_requires_two_replicas (tppf : ℚ → ℤ → ℝ) (alpha : ℚ) (pars : Pars ℝ)
    (solveMain : (ℕ → ℕ → ℕ → ℝ) → Vars1Val ℝ)
    (subObjVal : (ℕ → ℕ → ℝ) → (ℕ → ℕ → ℝ) → ℝ)
    (xhat : Vars1Val ℝ) (rng det : ℕ → ℕ → ℕ → ℕ → ℝ) (seed : Option ℕ)
    (S replicas : ℕ) :
    (run_MRP tppf alpha pars solveMain subObjVal xhat rng det seed S replicas).isSome ↔
      2 ≤ replicas := by
  have hlen := run_MRP_G_length pars solveMain subObjVal xhat rng det seed S replicas
  unfold run_MRP run_MRP_CI
  by_cases h0 : replicas = 0
  · subst h0
    rw [if_pos (by
      rw [List.isEmpty_iff]
      exact List.length_eq_zero.mp hlen)]
    simp
  · have hne1 : ¬ ((run_MRP_G pars solveMain subObjVal xhat rng det seed S replicas).isEmpty
        = true) := by
      rw [List.isEmpty_iff]
      intro h
      rw [h] at hlen
      simp at hlen
      omega
    rw [if_neg hne1]
    by_cases h1 : replicas = 1
    · subst h1
      rw [if_pos (by norm_num)]
      simp
    · rw [if_neg (by omega)]
      simp
      omega

/-- C7 counterexample: with the seed argument fixed to some value,
replicas 0 and 1 receive the identical sample from the sampler, even
though the unseeded stream would hand them two distinct fresh draws;
so the replicas do not each draw a fresh sample for every value of the
seed argument. -/
theorem mrp_fixed_seed_repeats_sample :
    run_MRP_sample (fun k => (k : ℚ)) (fun _ => 7) (some 3) 0 =
      run_MRP_sample (fun k => (k : ℚ)) (fun _ => 7) (some 3) 1 ∧
    run_MRP_sample (fun k => (k : ℚ)) (fun _ => 7) none 0 ≠
      run_MRP_sample (fun k => (k : ℚ)) (fun _ => 7) none 1 := by
  constructor
  · rfl
  · intro h
    simp only [run_MRP_sample, draw_samples, Nat.cast_zero, Nat.cast_one] at h
    exact zero_ne_one h

/-- C7 amended: each replica invokes the sampler once, passing the
run_MRP seed argument unchanged; with no seed, replica k receives the
k-th fresh draw of the stream, but with any fixed seed every replica
receives the identical deterministic draw, so the whole G list
degenerates to replicas copies of the same per-replica gap value -
the repetitions are fresh and independent only when seed is None. -/
theorem run_MRP_sample_seed_dependence (pars : Pars ℝ)
    (solveMain : (ℕ → ℕ → ℕ → ℝ) → Vars1Val ℝ)
    (subObjVal : (ℕ → ℕ → ℝ) → (ℕ → ℕ → ℝ) → ℝ)
    (xhat : Vars1Val ℝ) (rng det : ℕ → ℕ → ℕ → ℕ → ℝ) (S replicas : ℕ) :
    (∀ k, run_MRP_sample rng det none k = rng k) ∧
    (∀ sd k, run_MRP_sample rng det (some sd) k = det sd) ∧
    (∀ sd, run_MRP_G pars solveMain subObjVal xhat rng det (some sd) S replicas =
      List.replicate replicas
        (G_k pars subObjVal xhat (solveMain (det sd)) (det sd) S)) := by
  refine ⟨fun k => rfl, fun sd k => rfl, fun sd => ?_⟩
  unfold run_MRP_G
  have hconst : (fun k =>
      G_k pars subObjVal xhat (solveMain (run_MRP_sample rng det (some sd) k))
        (run_MRP_sample rng det (some sd) k) S) =
      fun _ : ℕ =>
        G_k pars subObjVal xhat (solveMain (det sd)) (det sd) S := rfl
  rw [hconst, List.map_const', List.length_range]

theorem get_2nd_stage_objective_scenario_invariance_witness :
    1 ≤ 2 ∧
    get_2nd_stage_objective parsQ_ex
        (.d3 2 (fun _ => fun _ _ => 1) (fun _ => fun _ _ => 2)) =
      get_2nd_stage_objective parsQ_ex (.d2 (fun _ _ => 1) (fun _ _ => 2)) :=
  ⟨by omega,
    (get_2nd_stage_objective_scenario_invariance parsQ_ex 2
      (fun _ _ => 1) (fun _ _ => 2) (by omega)).2.2.2.2⟩

end Recourse
